import Mathlib

/-!
Shallow embedding of the supervision core of `qt.py`:

* `ROSLauncherThread.clean_ansi_codes`  → `sub1` / `sub2` / `sub3` / `pyStrip` / `clean_ansi_codes`
* the line classification branch of `ROSLauncherThread.run` → `classify`
* `ROSLauncherThread.run`               → `runEvents`
* `ROSLauncherThread.stop`              → `stopFn`
* `ROSSubscriberThread.run`             → `subRunEvents`
* `PCDViewer.start_localization` / `start_pose_subscription` /
  `restart_pose_subscription`           → `applyOp` on `Sess`

Each Python `re.sub` call is embedded as a deterministic left-to-right
scanner (the three patterns are backtracking-free: every character class in
them is disjoint from the class that follows it, so the greedy/lazy stars
never have to give characters back).  The scanners are written with an
explicit fuel argument (initialised with the length of the input) so that
they are structurally recursive and reduce inside `decide`.
-/

/-- The escape byte 0x1B. -/
def escChar : Char := Char.ofNat 27

/-- The BEL byte 0x07 (terminator of the title-set sequences removed by the
second substitution in `clean_ansi_codes`). -/
def belChar : Char := Char.ofNat 7

/-- Character class `[@-Z\\-_]` of the first regex in `clean_ansi_codes`:
the single final byte of a two-byte escape sequence. -/
def isSingleFinal (c : Char) : Bool :=
  (0x40 ≤ c.toNat && c.toNat ≤ 0x5A) || (0x5C ≤ c.toNat && c.toNat ≤ 0x5F)

/-- Character class `[0-?]` (CSI parameter bytes). -/
def isCsiParam (c : Char) : Bool := 0x30 ≤ c.toNat && c.toNat ≤ 0x3F

/-- Character class of the CSI intermediate bytes 0x20 to 0x2F. -/
def isCsiInter (c : Char) : Bool := 0x20 ≤ c.toNat && c.toNat ≤ 0x2F

/-- Character class `[@-~]` (CSI final bytes). -/
def isCsiFinal (c : Char) : Bool := 0x40 ≤ c.toNat && c.toNat ≤ 0x7E

/-- Attempt to match the part of the first regex of `clean_ansi_codes`
(escape byte, then either one byte in 0x40-0x5A or 0x5C-0x5F, or `[` with
parameter, intermediate and final bytes) that follows the escape byte; on
success return the rest of the input. -/
def tryMatch1 : List Char → Option (List Char)
  | [] => none
  | c :: rest =>
    if isSingleFinal c = true then some rest
    else if c = '[' then
      match (rest.dropWhile isCsiParam).dropWhile isCsiInter with
      | [] => none
      | d :: rest2 => if isCsiFinal d = true then some rest2 else none
    else none

/-- Generic left-to-right `re.sub(pattern, '', text)` scanner: at each
position try the pattern via `tm`; on a match delete it and continue after
it, otherwise keep one character and advance.  Fuel-indexed (structural in
the fuel) so that it reduces inside `decide`; every pass below runs it with
fuel equal to the input length, which each step strictly decreases. -/
def scanSub (tm : List Char → Option (List Char)) : Nat → List Char → List Char
  | _, [] => []
  | 0, l => l
  | fuel + 1, c :: rest =>
    match tm (c :: rest) with
    | some rest2 => scanSub tm fuel rest2
    | none => c :: scanSub tm fuel rest

/-- Matcher of the full first regex: an escape byte followed by a
`tryMatch1` tail. -/
def tmEsc : List Char → Option (List Char)
  | c :: rest => if c = escChar then tryMatch1 rest else none
  | [] => none

/-- First substitution pass of `clean_ansi_codes`
(`ansi_escape.sub('', text)`): remove every match of the ANSI
escape-sequence regex, scanning left to right. -/
def sub1 (l : List Char) : List Char := scanSub tmEsc l.length l

/-- Scan for the lazy `.*?\x07` tail of `\]2;.*?\x07`: consume characters up
to and including the first BEL, failing on a newline (which `.` cannot
match) or on end of input. -/
def afterBel : List Char → Option (List Char)
  | [] => none
  | c :: rest =>
    if c = belChar then some rest
    else if c = '\n' then none
    else afterBel rest

/-- Matcher of the title-set regex: the literal `]2;` then lazily anything
up to the first BEL. -/
def tmTitle : List Char → Option (List Char)
  | c1 :: c2 :: c3 :: rest3 =>
    if c1 = ']' && c2 = '2' && c3 = ';' then afterBel rest3 else none
  | _ => none

/-- Second substitution pass of `clean_ansi_codes`
(`re.sub(r'\]2;.*?\x07', '', text)`): remove terminal title-set sequences. -/
def sub2 (l : List Char) : List Char := scanSub tmTitle l.length l

/-- Character class `[\d;]` of the third regex. -/
def isDigitSemi (c : Char) : Bool := c.isDigit || c = ';'

/-- Matcher of the color-code regex: `[`, greedily digits and semicolons,
then the literal `m`. -/
def tmColor : List Char → Option (List Char)
  | c :: rest =>
    if c = '[' then
      match rest.dropWhile isDigitSemi with
      | d :: rest2 => if d = 'm' then some rest2 else none
      | [] => none
    else none
  | [] => none

/-- Third substitution pass of `clean_ansi_codes`
(`re.sub(r'\[[\d;]*m', '', text)`): remove color-code shaped substrings
`[` digits/semicolons `m` (no escape byte required). -/
def sub3 (l : List Char) : List Char := scanSub tmColor l.length l

/-- Whitespace in the sense of Python `str.strip()` (characters for which
`str.isspace()` holds). -/
def isPySpace (c : Char) : Bool :=
  c = ' ' || c = '\t' || c = '\n' || c = '\r' ||
  c = Char.ofNat 0x0B || c = Char.ofNat 0x0C ||
  (0x1C ≤ c.toNat && c.toNat ≤ 0x1F) ||
  c = Char.ofNat 0x85 || c = Char.ofNat 0xA0 || c = Char.ofNat 0x1680 ||
  (0x2000 ≤ c.toNat && c.toNat ≤ 0x200A) ||
  c = Char.ofNat 0x2028 || c = Char.ofNat 0x2029 ||
  c = Char.ofNat 0x202F || c = Char.ofNat 0x205F || c = Char.ofNat 0x3000

/-- Python `str.strip()`: drop whitespace from both ends. -/
def pyStrip (l : List Char) : List Char :=
  ((l.dropWhile isPySpace).reverse.dropWhile isPySpace).reverse

/-- `ROSLauncherThread.clean_ansi_codes` on the character-list level: the
three substitution passes followed by `strip()`. -/
def cleanList (l : List Char) : List Char := pyStrip (sub3 (sub2 (sub1 l)))

/-- `ROSLauncherThread.clean_ansi_codes` as a `String` function. -/
def clean_ansi_codes (text : String) : String := String.mk (cleanList text.data)

/-- Does `pat` occur as a leading block of `s`?  (Used to express Python
substring containment.) -/
def leadsWith : List Char → List Char → Bool
  | [], _ => true
  | _ :: _, [] => false
  | p :: ps, c :: cs => p = c && leadsWith ps cs

/-- Python `pat in s`: `pat` occurs contiguously somewhere in `s`. -/
def hasSub (pat : List Char) : List Char → Bool
  | [] => leadsWith pat []
  | c :: cs => leadsWith pat (c :: cs) || hasSub pat cs

/-- Severity of a classified line. -/
inductive Severity
  | info
  | error
deriving DecidableEq

/-- The classification branch of `ROSLauncherThread.run`:
`'[ERROR]' in cleaned_line or '[WARN' in cleaned_line` routes the line to
the error channel, anything else to the output channel. -/
def classify (l : List Char) : Severity :=
  if hasSub "[ERROR]".data l || hasSub "[WARN".data l then Severity.error
  else Severity.info

/-- A line in the input scanned by the sanitizer is "well escaped" when, in
scan order, every escape byte begins a sequence recognised by `tryMatch1`. -/
def wfEscF : Nat → List Char → Bool
  | _, [] => true
  | 0, _ => false
  | fuel + 1, c :: rest =>
    if c = escChar then
      match tryMatch1 rest with
      | some rest2 => wfEscF fuel rest2
      | none => false
    else wfEscF fuel rest

/-- Every escape byte of `l` begins a recognised escape sequence. -/
def wfEsc (l : List Char) : Bool := wfEscF l.length l

/-- Does `l` contain a well-formed ANSI escape sequence (a match of the
first regex of `clean_ansi_codes`) starting at some position? -/
def hasAnsiSeq (l : List Char) : Bool :=
  l.tails.any fun t =>
    match t with
    | c :: rest => c = escChar && (tryMatch1 rest).isSome
    | [] => false

example : cleanList "abc[31mdef".data = "abcdef".data := by decide
example : cleanList [escChar, escChar, '[', '3', '1', 'm', 'Q'] = [escChar, 'Q'] := by decide
example : cleanList [escChar, 'Q'] = [] := by decide
example : classify "[ERROR] boom".data = Severity.error := by decide
example : classify "hello".data = Severity.info := by decide

/-! ### `ROSLauncherThread.run` as an event trace -/

/-- Events emitted by `ROSLauncherThread.run` towards the UI consumer:
`output_signal`, `error_signal`, the creation of the OS process
(`subprocess.Popen`), and `finished_signal`. -/
inductive Event
  | out (s : String)
  | err (s : String)
  | spawn
  | fin (ok : Bool)
deriving DecidableEq

/-- Twenty-one spaces: the indentation kept by the line continuations of the
triple-quoted `cmd` literal in `ROSLauncherThread.run`. -/
def contIndent : String := "                     "

/-- The `cmd` string built by `ROSLauncherThread.run` (inside the Python
string literal each backslash-newline pair disappears, so the parts are
joined by the continuation indentation). -/
def cmdStr (path : String) : String :=
  "cd " ++ path ++ " && " ++ contIndent ++ "source devel/setup.bash && " ++
  contIndent ++
  "export ROSCONSOLE_FORMAT=\x27[$\x7bseverity\x7d] [$\x7btime\x7d]: $\x7bmessage\x7d\x27 && " ++
  contIndent ++ "roslaunch ndt_localizer ndt_localizer.launch"

/-- First preamble message of `ROSLauncherThread.run`. -/
def msgStarting (path : String) : String :=
  "正在启动NDT定位器...\n路径: " ++ path ++ "\n"

/-- Second preamble message of `ROSLauncherThread.run`
(`"执行命令:\n" + cmd.replace("\\", "").strip() + "\n"`). -/
def msgCommand (path : String) : String :=
  "执行命令:\n" ++ String.mk (pyStrip (((cmdStr path).replace "\\" "").data)) ++ "\n"

/-- Events produced for one raw line of the read loop: sanitize
(`clean_ansi_codes(line.strip())`), skip if the result is empty, otherwise
emit on the channel chosen by `classify`. -/
def processLine (line : String) : List Event :=
  let cleaned := cleanList (pyStrip line.data)
  if cleaned = [] then []
  else if classify cleaned = Severity.error then [Event.err (String.mk cleaned)]
  else [Event.out (String.mk cleaned)]

/-- The read loop of `ROSLauncherThread.run`.  `stopF i` tells whether the
`is_running` flag was observed cleared at iteration `i` (break before the
line is handled); `pollF i` tells whether `self.process.poll()` observed the
process exit at the end of iteration `i` (break after the line is handled,
dropping the unread rest). -/
def runLoop (stopF pollF : Nat → Bool) : Nat → List String → List Event
  | _, [] => []
  | i, line :: rest =>
    if stopF i = true then []
    else
      (if line = "" then [] else processLine line) ++
      (if pollF i = true then [] else runLoop stopF pollF (i + 1) rest)

/-- The event trace of one execution of `ROSLauncherThread.run`.
`pathOk` is `os.path.exists(self.ndt_path)`; `spawnOk` is whether
`subprocess.Popen` (or anything else in the `try` block before the loop)
raised, with `excMsg` the text of the exception; `lines` is the sequence of
raw lines the process wrote; `rc` its exit code. -/
def runEvents (pathOk spawnOk : Bool) (excMsg path : String) (lines : List String)
    (stopF pollF : Nat → Bool) (rc : Int) : List Event :=
  if pathOk = false then
    [Event.err ("错误: NDT路径不存在: " ++ path), Event.fin false]
  else if spawnOk = false then
    [Event.out (msgStarting path), Event.out (msgCommand path),
     Event.err ("启动失败: " ++ excMsg), Event.fin false]
  else
    [Event.out (msgStarting path), Event.out (msgCommand path), Event.spawn] ++
    runLoop stopF pollF 0 lines ++ [Event.fin (decide (rc = 0))]

/-- Concatenated per-line events of a full, uninterrupted read of `lines`. -/
def linesEvents (lines : List String) : List Event :=
  lines.foldr (fun l acc => processLine l ++ acc) []

/-- Is the event a `finished_signal` emission? -/
def isFinEv : Event → Bool
  | Event.fin _ => true
  | _ => false

/-- Is the event a line emission (`output_signal` or `error_signal`)? -/
def isLineEv : Event → Bool
  | Event.out _ => true
  | Event.err _ => true
  | _ => false

/-! ### `ROSLauncherThread.stop` -/

/-- Observable actions of `ROSLauncherThread.stop`: the two process-group
signals, the wait with its timeout in seconds, and the two emissions. -/
inductive StopAct
  | sigterm
  | sigkill
  | waitT (secs : Nat)
  | emitOut (s : String)
  | emitErr (s : String)
deriving DecidableEq

/-- The state of a `ROSLauncherThread` relevant to `stop`: the cooperative
flag and whether `self.process` is set (it is never reset to `None`). -/
structure LState where
  is_running : Bool
  hasProcess : Bool
deriving DecidableEq

/-- Message emitted by `stop` after the graceful signal. -/
def stopMsg : String := "\n定位系统已停止"

/-- `ROSLauncherThread.stop`.  `pgidOk` is whether
`os.killpg(os.getpgid(...), SIGTERM)` succeeded (it raises when the process
has already been reaped); `waitTimesOut` is whether `process.wait(5)` raised
`TimeoutExpired`; `pgidOk2` is whether the escalation `killpg(..., SIGKILL)`
succeeded (its failure is swallowed); `excMsg` is the text of the exception
on the failure path.  Returns the new state and the action trace. -/
def stopFn (s : LState) (pgidOk waitTimesOut pgidOk2 : Bool) (excMsg : String) :
    LState × List StopAct :=
  let s2 : LState := { s with is_running := false }
  if s.hasProcess = false then (s2, [])
  else if pgidOk = false then
    (s2, [StopAct.emitErr ("停止进程时出错: " ++ excMsg)])
  else if waitTimesOut = false then
    (s2, [StopAct.sigterm, StopAct.emitOut stopMsg, StopAct.waitT 5])
  else
    (s2, [StopAct.sigterm, StopAct.emitOut stopMsg, StopAct.waitT 5] ++
         (if pgidOk2 = true then [StopAct.sigkill] else []))

/-- Action trace of one `stop` call. -/
def stopTrace (s : LState) (pgidOk waitTimesOut pgidOk2 : Bool) (excMsg : String) :
    List StopAct :=
  (stopFn s pgidOk waitTimesOut pgidOk2 excMsg).2

/-! ### `ROSSubscriberThread.run` -/

/-- Events of `ROSSubscriberThread.run`: `error_signal`, the registration of
the `rospy.Subscriber`, `connected_signal`, and the `unregister` call of the
`finally` block. -/
inductive SubEvent
  | err (s : String)
  | subscribe
  | connected
  | unsubscribe
deriving DecidableEq

/-- The event trace of one execution of `ROSSubscriberThread.run`.
`hasRos` is `HAS_ROS`; `probeOk` is whether the `rosgraph` master liveness
probe (`master.getPid()`) succeeded, with `probeErr` the exception text;
`subOk` is whether `rospy.Subscriber(...)` succeeded, with `subErr` the
exception text of the outer handler. -/
def subRunEvents (hasRos probeOk subOk : Bool) (probeErr subErr : String) : List SubEvent :=
  if hasRos = false then [SubEvent.err "ROS未安装或环境配置错误，无法订阅话题"]
  else if probeOk = false then
    [SubEvent.err ("无法连接到ROS Master: " ++ probeErr ++ "。请确保运行了 \x27roscore\x27")]
  else if subOk = false then [SubEvent.err ("ROS订阅失败: " ++ subErr)]
  else [SubEvent.subscribe, SubEvent.connected, SubEvent.unsubscribe]

/-! ### Session-level single-instance invariant (`PCDViewer`) -/

/-- Session state of `PCDViewer` relevant to claim C8: the two guard flags
(`is_localization_running`, `is_pose_subscription_active`) and the number of
live launcher processes / live subscriber threads. -/
structure Sess where
  locActive : Bool
  subActive : Bool
  locLive : Nat
  subLive : Nat
deriving DecidableEq

/-- Consumer-level operations on the session.  `confirmed` models the answer
to the confirmation dialog, `rosOk` whether `HAS_ROS` allows a subscriber to
be created. -/
inductive SessOp
  | startLoc (confirmed : Bool)
  | stopLoc (confirmed : Bool)
  | locExited
  | startSub (rosOk : Bool)
  | restartSub (rosOk : Bool)
  | subDied
deriving DecidableEq

/-- `PCDViewer.start_pose_subscription`: rejected while the guard flag is
set; otherwise (when ROS is importable) a new subscriber thread is created
and the flag is set. -/
def startSubFn (s : Sess) (rosOk : Bool) : Sess :=
  if s.subActive = true then s
  else if rosOk = true then { s with subActive := true, subLive := s.subLive + 1 }
  else s

/-- One consumer-level operation, following the guards of
`PCDViewer.start_localization`, `stop_localization`, `on_ros_finished`,
`start_pose_subscription` and `restart_pose_subscription`.  `restartSub`
first stops the previous subscriber and `wait()`s (joins) its thread, then
starts afresh. -/
def applyOp (s : Sess) : SessOp → Sess
  | SessOp.startLoc conf =>
    if s.locActive = true then s
    else if conf = true then { s with locActive := true, locLive := s.locLive + 1 }
    else s
  | SessOp.stopLoc conf =>
    if s.locActive = false then s
    else if conf = true then { s with locActive := false, locLive := s.locLive - 1 }
    else s
  | SessOp.locExited =>
    if s.locActive = true then { s with locActive := false, locLive := s.locLive - 1 }
    else s
  | SessOp.startSub rosOk => startSubFn s rosOk
  | SessOp.restartSub rosOk => startSubFn { s with subActive := false, subLive := 0 } rosOk
  | SessOp.subDied => { s with subLive := s.subLive - 1 }

/-- Initial session state of `PCDViewer.__init__`. -/
def initSess : Sess := ⟨false, false, 0, 0⟩

/-- Run a sequence of consumer operations from the initial state. -/
def runSess (ops : List SessOp) : Sess := ops.foldl applyOp initSess

/-- Invariant coupling the guard flags to the live-instance counts. -/
def SessInv (s : Sess) : Prop :=
  s.locLive = (if s.locActive = true then 1 else 0) ∧
  s.subLive ≤ 1 ∧ (s.subActive = false → s.subLive = 0)

example : processLine "world\n" = [Event.out "world"] := by decide
example : processLine "" = [] := by decide
example : processLine "\x1B[31m[ERROR] boom\n" = [Event.err "[ERROR] boom"] := by decide
example : stopTrace ⟨false, true⟩ false false false "x" =
    [StopAct.emitErr "停止进程时出错: x"] := by decide
example : runSess [SessOp.startSub true, SessOp.restartSub true] = ⟨false, true, 0, 1⟩ := by decide

/-! ### Helper lemmas about the sanitizer scanners -/

/-- With zero fuel the scanner returns its input unchanged. -/
theorem scanSub_zero (tm : List Char → Option (List Char)) (l : List Char) :
    scanSub tm 0 l = l := by
  cases l <;> rfl

/-- Characters of a scanner output are characters of its input, provided
every match consumes only characters of the segment it matched. -/
theorem scanSub_mem {tm : List Char → Option (List Char)}
    (htm : ∀ l1 l2, tm l1 = some l2 → ∀ y, y ∈ l2 → y ∈ l1) :
    ∀ (fuel : Nat) (l : List Char) (x : Char), x ∈ scanSub tm fuel l → x ∈ l := by
  intro fuel
  induction fuel with
  | zero =>
    intro l x h
    rw [scanSub_zero] at h
    exact h
  | succ n ih =>
    intro l x h
    cases l with
    | nil => simp [scanSub] at h
    | cons c rest =>
      cases htc : tm (c :: rest) with
      | some rest2 =>
        simp only [scanSub, htc] at h
        exact htm _ _ htc x (ih rest2 x h)
      | none =>
        simp only [scanSub, htc] at h
        rcases List.mem_cons.mp h with h1 | h2
        · exact h1 ▸ List.mem_cons_self c rest
        · exact List.mem_cons_of_mem c (ih rest x h2)

/-- If the matcher can never fire on any position of `l` the scanner is the
identity on `l`. -/
theorem scanSub_id {tm : List Char → Option (List Char)} :
    ∀ (fuel : Nat) (l : List Char),
      (∀ c rest2, c ∈ l → tm (c :: rest2) = none) → scanSub tm fuel l = l := by
  intro fuel
  induction fuel with
  | zero => intro l _; exact scanSub_zero tm l
  | succ n ih =>
    intro l hl
    cases l with
    | nil => rfl
    | cons c rest =>
      have h0 : tm (c :: rest) = none := hl c rest (List.mem_cons_self c rest)
      simp only [scanSub, h0]
      rw [ih rest fun c2 r2 hc2 => hl c2 r2 (List.mem_cons_of_mem c hc2)]

/-- `afterBel` only discards characters: its output is part of its input. -/
theorem afterBel_mem : ∀ (l l2 : List Char), afterBel l = some l2 → ∀ y, y ∈ l2 → y ∈ l := by
  intro l
  induction l with
  | nil => intro l2 h; exact Option.noConfusion h
  | cons c rest ih =>
    intro l2 h y hy
    simp only [afterBel] at h
    by_cases h1 : c = belChar
    · rw [if_pos h1] at h
      rw [Option.some.injEq] at h
      subst h
      exact List.mem_cons_of_mem c hy
    · rw [if_neg h1] at h
      by_cases h2 : c = '\n'
      · rw [if_pos h2] at h
        exact Option.noConfusion h
      · rw [if_neg h2] at h
        exact List.mem_cons_of_mem c (ih l2 h y hy)

/-- `tryMatch1` only discards characters. -/
theorem tryMatch1_mem : ∀ (l l2 : List Char), tryMatch1 l = some l2 → ∀ y, y ∈ l2 → y ∈ l := by
  intro l l2 h y hy
  cases l with
  | nil => exact Option.noConfusion h
  | cons c rest =>
    simp only [tryMatch1] at h
    by_cases h1 : isSingleFinal c = true
    · rw [if_pos h1] at h
      rw [Option.some.injEq] at h
      subst h
      exact List.mem_cons_of_mem c hy
    · rw [if_neg h1] at h
      by_cases h2 : c = '['
      · rw [if_pos h2] at h
        cases hdw : (rest.dropWhile isCsiParam).dropWhile isCsiInter with
        | nil =>
          simp only [hdw] at h
          exact Option.noConfusion h
        | cons d rest2 =>
          simp only [hdw] at h
          by_cases h3 : isCsiFinal d = true
          · rw [if_pos h3] at h
            rw [Option.some.injEq] at h
            subst h
            have hy2 : y ∈ (rest.dropWhile isCsiParam).dropWhile isCsiInter := by
              rw [hdw]; exact List.mem_cons_of_mem d hy
            have hy3 : y ∈ rest.dropWhile isCsiParam :=
              (List.dropWhile_suffix isCsiInter).sublist.subset hy2
            have hy4 : y ∈ rest :=
              (List.dropWhile_suffix isCsiParam).sublist.subset hy3
            exact List.mem_cons_of_mem c hy4
          · rw [if_neg h3] at h
            exact Option.noConfusion h
      · rw [if_neg h2] at h
        exact Option.noConfusion h

/-- `tmEsc` only discards characters. -/
theorem tmEsc_mem : ∀ (l1 l2 : List Char), tmEsc l1 = some l2 → ∀ y, y ∈ l2 → y ∈ l1 := by
  intro l1 l2 h y hy
  cases l1 with
  | nil => exact Option.noConfusion h
  | cons c rest =>
    simp only [tmEsc] at h
    by_cases hc : c = escChar
    · rw [if_pos hc] at h
      exact List.mem_cons_of_mem c (tryMatch1_mem rest l2 h y hy)
    · rw [if_neg hc] at h
      exact Option.noConfusion h

/-- `tmTitle` only discards characters. -/
theorem tmTitle_mem : ∀ (l1 l2 : List Char), tmTitle l1 = some l2 → ∀ y, y ∈ l2 → y ∈ l1 := by
  intro l1 l2 h y hy
  cases l1 with
  | nil => exact Option.noConfusion h
  | cons c1 t1 =>
    cases t1 with
    | nil => exact Option.noConfusion h
    | cons c2 t2 =>
      cases t2 with
      | nil => exact Option.noConfusion h
      | cons c3 rest3 =>
        simp only [tmTitle] at h
        split at h
        · exact List.mem_cons_of_mem _ (List.mem_cons_of_mem _
            (List.mem_cons_of_mem _ (afterBel_mem rest3 l2 h y hy)))
        · exact Option.noConfusion h

/-- `tmColor` only discards characters. -/
theorem tmColor_mem : ∀ (l1 l2 : List Char), tmColor l1 = some l2 → ∀ y, y ∈ l2 → y ∈ l1 := by
  intro l1 l2 h y hy
  cases l1 with
  | nil => exact Option.noConfusion h
  | cons c rest =>
    simp only [tmColor] at h
    split at h
    · cases hdw : rest.dropWhile isDigitSemi with
      | nil =>
        simp only [hdw] at h
        exact Option.noConfusion h
      | cons d rest2 =>
        simp only [hdw] at h
        split at h
        · rw [Option.some.injEq] at h
          subst h
          have hy2 : y ∈ rest.dropWhile isDigitSemi := by
            rw [hdw]; exact List.mem_cons_of_mem d hy
          exact List.mem_cons_of_mem c
            ((List.dropWhile_suffix isDigitSemi).sublist.subset hy2)
        · exact Option.noConfusion h
    · exact Option.noConfusion h

/-- `tmEsc` never fires when the head is not the escape byte. -/
theorem tmEsc_none {c : Char} (hc : ¬c = escChar) (r : List Char) : tmEsc (c :: r) = none := by
  simp [tmEsc, hc]

/-- `tmTitle` never fires when the head is not a right bracket. -/
theorem tmTitle_none {c : Char} (hc : ¬c = ']') (r : List Char) : tmTitle (c :: r) = none := by
  cases r with
  | nil => rfl
  | cons c2 t2 =>
    cases t2 with
    | nil => rfl
    | cons c3 t3 =>
      simp only [tmTitle]
      rw [if_neg]
      simp [hc]

/-- `tmColor` never fires when the head is not a left bracket. -/
theorem tmColor_none {c : Char} (hc : ¬c = '[') (r : List Char) : tmColor (c :: r) = none := by
  simp [tmColor, hc]

/-- An escape-free input passes through the first substitution unchanged. -/
theorem sub1_id {l : List Char} (h : escChar ∉ l) : sub1 l = l :=
  scanSub_id l.length l fun c r2 hc => @tmEsc_none c (fun he => h (he ▸ hc)) r2

/-- An input without right brackets passes through the second substitution
unchanged. -/
theorem sub2_id {l : List Char} (h : ']' ∉ l) : sub2 l = l :=
  scanSub_id l.length l fun c r2 hc => @tmTitle_none c (fun he => h (he ▸ hc)) r2

/-- An input without left brackets passes through the third substitution
unchanged. -/
theorem sub3_id {l : List Char} (h : '[' ∉ l) : sub3 l = l :=
  scanSub_id l.length l fun c r2 hc => @tmColor_none c (fun he => h (he ▸ hc)) r2

/-- When every escape byte of the input begins a recognised sequence, the
first substitution removes them all. -/
theorem wfEsc_no_esc : ∀ (fuel : Nat) (l : List Char),
    wfEscF fuel l = true → escChar ∉ scanSub tmEsc fuel l := by
  intro fuel
  induction fuel with
  | zero =>
    intro l h
    cases l with
    | nil => simp [scanSub]
    | cons c rest => simp [wfEscF] at h
  | succ n ih =>
    intro l h
    cases l with
    | nil => simp [scanSub]
    | cons c rest =>
      by_cases hc : c = escChar
      · subst hc
        simp only [wfEscF, if_pos rfl] at h
        cases htm : tryMatch1 rest with
        | some rest2 =>
          rw [htm] at h
          have hscan : scanSub tmEsc (n + 1) (escChar :: rest) = scanSub tmEsc n rest2 := by
            simp [scanSub, tmEsc, htm]
          rw [hscan]
          exact ih rest2 h
        | none =>
          rw [htm] at h
          simp at h
      · simp only [wfEscF, if_neg hc] at h
        have hscan : scanSub tmEsc (n + 1) (c :: rest) = c :: scanSub tmEsc n rest := by
          simp [scanSub, tmEsc_none hc]
        rw [hscan]
        intro hmem
        rcases List.mem_cons.mp hmem with h1 | h2
        · exact hc h1.symm
        · exact ih rest h h2

/-- Characters of `pyStrip l` are characters of `l`. -/
theorem mem_pyStrip {x : Char} {l : List Char} (h : x ∈ pyStrip l) : x ∈ l := by
  have h1 : x ∈ l.dropWhile isPySpace :=
    (List.rdropWhile_prefix isPySpace (l.dropWhile isPySpace)).sublist.subset h
  exact (List.dropWhile_suffix isPySpace).sublist.subset h1

/-- The head of a non-trivial `dropWhile` residue fails the predicate. -/
theorem dropWhile_head_false {p : Char → Bool} {l : List Char} {c : Char} {t : List Char}
    (h : l.dropWhile p = c :: t) : p c = false := by
  induction l with
  | nil => simp [List.dropWhile] at h
  | cons a r ih =>
    rw [List.dropWhile_cons] at h
    by_cases hp : p a = true
    · rw [if_pos hp] at h
      exact ih h
    · rw [if_neg hp] at h
      cases h
      simpa using hp

/-- The left strip is already done on the output of `pyStrip`. -/
theorem dropWhile_pyStrip (l : List Char) :
    (pyStrip l).dropWhile isPySpace = pyStrip l := by
  show (List.rdropWhile isPySpace (l.dropWhile isPySpace)).dropWhile isPySpace
    = List.rdropWhile isPySpace (l.dropWhile isPySpace)
  cases hx : List.rdropWhile isPySpace (l.dropWhile isPySpace) with
  | nil => simp
  | cons c t =>
    obtain ⟨u, hu⟩ := List.rdropWhile_prefix isPySpace (l.dropWhile isPySpace)
    rw [hx] at hu
    have hm : l.dropWhile isPySpace = c :: (t ++ u) := by rw [← hu]; simp
    have hc : isPySpace c = false := dropWhile_head_false hm
    simp [List.dropWhile_cons, hc]

/-- Python `strip` is idempotent. -/
theorem pyStrip_idem (l : List Char) : pyStrip (pyStrip l) = pyStrip l := by
  have h2 : pyStrip (pyStrip l)
      = List.rdropWhile isPySpace ((pyStrip l).dropWhile isPySpace) := rfl
  rw [h2, dropWhile_pyStrip]
  show List.rdropWhile isPySpace (List.rdropWhile isPySpace (l.dropWhile isPySpace))
    = pyStrip l
  rw [List.rdropWhile_idempotent]
  rfl

/-! ### Claim C3 -/

/-- C3 counterexample: the claim "for every raw line containing ANSI escape
sequences the output of sanitize contains no escape bytes, and sanitize is
idempotent" is false on the code.  The seven-character line
`ESC ESC [ 3 1 m Q` contains the well-formed ANSI colour sequence
`ESC [ 3 1 m`; `clean_ansi_codes` removes it in a single left-to-right pass,
which glues the leading stray `ESC` to the following `Q`, so the output
`ESC Q` still contains an escape byte, and a second application erases it
(`ESC Q` is itself a recognised two-byte escape sequence), violating
idempotence. -/
theorem C3_counterexample :
    hasAnsiSeq [escChar, escChar, '[', '3', '1', 'm', 'Q'] = true
    ∧ escChar ∈ cleanList [escChar, escChar, '[', '3', '1', 'm', 'Q']
    ∧ cleanList (cleanList [escChar, escChar, '[', '3', '1', 'm', 'Q'])
        ≠ cleanList [escChar, escChar, '[', '3', '1', 'm', 'Q'] := by
  refine ⟨?_, ?_, ?_⟩ <;> decide

/-- C3 amended: for every raw line in which each escape byte begins a
recognised ANSI escape sequence (in scan order), the sanitized output
contains no escape bytes; and sanitize is idempotent on lines containing
none of the bytes ESC, `[`, `]` (on which the three substitutions are the
identity and only the whitespace trim acts). -/
theorem C3_sanitize_amended :
    (∀ l : List Char, wfEsc l = true → escChar ∉ cleanList l)
    ∧ (∀ l : List Char, escChar ∉ l → '[' ∉ l → ']' ∉ l →
        cleanList (cleanList l) = cleanList l) := by
  constructor
  · intro l h hmem
    have h3 : escChar ∈ sub3 (sub2 (sub1 l)) := mem_pyStrip hmem
    have h2 : escChar ∈ sub2 (sub1 l) := scanSub_mem tmColor_mem _ _ _ h3
    have h1 : escChar ∈ sub1 l := scanSub_mem tmTitle_mem _ _ _ h2
    exact wfEsc_no_esc l.length l h h1
  · intro l h1 h2 h3
    have ecl : cleanList l = pyStrip l := by
      unfold cleanList
      rw [sub1_id h1, sub2_id h3, sub3_id h2]
    rw [ecl]
    have b1 : escChar ∉ pyStrip l := fun hm => h1 (mem_pyStrip hm)
    have b2 : '[' ∉ pyStrip l := fun hm => h2 (mem_pyStrip hm)
    have b3 : ']' ∉ pyStrip l := fun hm => h3 (mem_pyStrip hm)
    have ecl2 : cleanList (pyStrip l) = pyStrip (pyStrip l) := by
      unfold cleanList
      rw [sub1_id b1, sub2_id b3, sub3_id b2]
    rw [ecl2, pyStrip_idem]

/-- C3 witness: the amended theorem applied to the concrete line
`ESC [ 3 1 m h e l l o` (well escaped) and to the bracket-free line `abc`. -/
theorem C3_sanitize_amended_w :
    escChar ∉ cleanList "\x1B[31mhello".data
    ∧ cleanList (cleanList "abc".data) = cleanList "abc".data :=
  ⟨C3_sanitize_amended.1 "\x1B[31mhello".data (by decide),
   C3_sanitize_amended.2 "abc".data (by decide) (by decide) (by decide)⟩

/-! ### Claim C9 -/

/-- C9: the sanitizer deletes colour-code shaped substrings even without any
escape byte: the line `abc[31mdef` contains no 0x1B byte, yet
`clean_ansi_codes` returns `abcdef`, which differs from the
whitespace-trimmed input (the third substitution fired on the bare
`[31m`). -/
theorem C9_bracket_without_escape :
    escChar ∉ "abc[31mdef".data
    ∧ clean_ansi_codes "abc[31mdef" = "abcdef"
    ∧ clean_ansi_codes "abc[31mdef" ≠ String.mk (pyStrip "abc[31mdef".data) := by
  refine ⟨?_, ?_, ?_⟩ <;> decide

/-! ### Claim C4 -/

/-- C4: line classification is a pure function of the sanitized text: it
returns the error severity exactly when the line contains the token
`[ERROR]` or the token `[WARN`, and evaluating it twice yields the same
severity. -/
theorem C4_classify_pure (l : List Char) :
    (classify l = Severity.error ↔
      (hasSub "[ERROR]".data l = true ∨ hasSub "[WARN".data l = true))
    ∧ classify l = classify l := by
  refine ⟨?_, rfl⟩
  cases h1 : hasSub "[ERROR]".data l <;> cases h2 : hasSub "[WARN".data l <;>
    simp [classify, h1, h2]

/-! ### Claim C2 -/

/-- C2: on a running supervisor (`self.process` set, the group lookup and
the graceful signal succeeding), `stop` first sends SIGTERM to the process
group, then waits with the fixed 5-second timeout, and sends SIGKILL only
when that wait timed out — never before the graceful signal and the wait;
the only wait ever issued uses timeout 5. -/
theorem C2_stop_two_phase (s : LState) (pgidOk waitTimesOut pgidOk2 : Bool) (excMsg : String)
    (hp : s.hasProcess = true) (hok : pgidOk = true) :
    (stopTrace s pgidOk waitTimesOut pgidOk2 excMsg).head? = some StopAct.sigterm
    ∧ (StopAct.sigkill ∈ stopTrace s pgidOk waitTimesOut pgidOk2 excMsg →
        waitTimesOut = true
        ∧ stopTrace s pgidOk waitTimesOut pgidOk2 excMsg =
            [StopAct.sigterm, StopAct.emitOut stopMsg, StopAct.waitT 5, StopAct.sigkill])
    ∧ StopAct.waitT 5 ∈ stopTrace s pgidOk waitTimesOut pgidOk2 excMsg
    ∧ (∀ n, StopAct.waitT n ∈ stopTrace s pgidOk waitTimesOut pgidOk2 excMsg → n = 5) := by
  subst hok
  cases waitTimesOut <;> cases pgidOk2 <;>
    simp [stopTrace, stopFn, hp]

/-- C2 witness: the two-phase theorem at a concrete running state whose wait
times out. -/
theorem C2_stop_two_phase_w :
    StopAct.waitT 5 ∈ stopTrace ⟨true, true⟩ true true true "x" :=
  (C2_stop_two_phase ⟨true, true⟩ true true true "x" rfl rfl).2.2.1

/-! ### Claim C6 -/

/-- C6 counterexample: calling `stop` on an already-stopped supervisor is
not a no-op.  After a completed stop the process has been reaped but
`self.process` is still set, so the group lookup raises and the handler
emits an error notification: the trace is non-empty. -/
theorem C6_counterexample :
    stopTrace ⟨false, true⟩ false false false "[Errno 3] No such process" ≠ []
    ∧ stopTrace ⟨false, true⟩ false false false "[Errno 3] No such process"
        = [StopAct.emitErr "停止进程时出错: [Errno 3] No such process"] := by
  refine ⟨?_, ?_⟩ <;> decide

/-- C6 amended: `stop` on a never-started supervisor (`self.process` is
`None`) is a no-op apart from clearing the running flag, does not throw, and
stays a no-op on repeated calls; but `stop` on an already-stopped supervisor
whose process was reaped does not stay silent: it throws nothing yet emits
an error notification. -/
theorem C6_stop_idempotent_amended (s : LState) (p1 wt p2 : Bool) (e : String) :
    (s.hasProcess = false →
      stopFn s p1 wt p2 e = ({ is_running := false, hasProcess := false }, [])
      ∧ stopFn (stopFn s p1 wt p2 e).1 p1 wt p2 e = stopFn s p1 wt p2 e)
    ∧ (s.hasProcess = true → p1 = false →
      stopTrace s p1 wt p2 e = [StopAct.emitErr ("停止进程时出错: " ++ e)]) := by
  constructor
  · intro h
    refine ⟨?_, ?_⟩ <;> simp [stopFn, h]
  · intro h1 h2
    subst h2
    simp [stopTrace, stopFn, h1]

/-- C6 witness: the amended theorem at the never-started state. -/
theorem C6_stop_idempotent_amended_w :
    stopFn ⟨false, false⟩ true true true "x" = ({ is_running := false, hasProcess := false }, []) :=
  ((C6_stop_idempotent_amended ⟨false, false⟩ true true true "x").1 rfl).1

/-! ### Claim C10 -/

/-- C10: when the managed process has already exited and been reaped,
`stop` is not silent: `os.getpgid` raises, the exception is caught, no
signal is sent and the normal stopped message is not emitted; instead one
error notification goes out on the error channel. -/
theorem C10_stop_reaped_error (s : LState) (wt p2 : Bool) (e : String)
    (hp : s.hasProcess = true) :
    stopTrace s false wt p2 e = [StopAct.emitErr ("停止进程时出错: " ++ e)]
    ∧ StopAct.emitOut stopMsg ∉ stopTrace s false wt p2 e
    ∧ StopAct.sigterm ∉ stopTrace s false wt p2 e
    ∧ StopAct.sigkill ∉ stopTrace s false wt p2 e := by
  simp [stopTrace, stopFn, hp, stopMsg]

/-- C10 witness: the reaped-process theorem at a concrete state. -/
theorem C10_stop_reaped_error_w :
    stopTrace ⟨false, true⟩ false true true "[Errno 3] No such process"
      = [StopAct.emitErr "停止进程时出错: [Errno 3] No such process"] :=
  (C10_stop_reaped_error ⟨false, true⟩ true true "[Errno 3] No such process" rfl).1

/-! ### Claim C7 -/

/-- C7: if the middleware liveness probe fails, the subscriber run emits the
middleware-unavailable error and returns without registering a
subscription (and hence never emits Connected); if the probe and the
registration succeed, the trace is exactly registration, then one Connected
notification, then the teardown unregistration — so Connected is emitted
exactly once and only after the subscription is registered. -/
theorem C7_subscriber_start (probeOk subOk : Bool) (probeErr subErr : String) :
    (probeOk = false →
      subRunEvents true probeOk subOk probeErr subErr
        = [SubEvent.err ("无法连接到ROS Master: " ++ probeErr ++ "。请确保运行了 \x27roscore\x27")]
      ∧ SubEvent.subscribe ∉ subRunEvents true probeOk subOk probeErr subErr
      ∧ SubEvent.connected ∉ subRunEvents true probeOk subOk probeErr subErr)
    ∧ (probeOk = true → subOk = true →
      subRunEvents true probeOk subOk probeErr subErr
        = [SubEvent.subscribe, SubEvent.connected, SubEvent.unsubscribe]
      ∧ (subRunEvents true probeOk subOk probeErr subErr).count SubEvent.connected = 1) := by
  constructor
  · intro h
    subst h
    refine ⟨rfl, ?_, ?_⟩ <;> simp [subRunEvents]
  · intro h1 h2
    subst h1
    subst h2
    exact ⟨rfl, rfl⟩

/-- C7 witness: the subscriber theorem at a failed probe and at a successful
registration. -/
theorem C7_subscriber_start_w :
    subRunEvents true false true "connection refused" ""
      = [SubEvent.err ("无法连接到ROS Master: " ++ "connection refused" ++ "。请确保运行了 \x27roscore\x27")]
    ∧ subRunEvents true true true "" "" = [SubEvent.subscribe, SubEvent.connected, SubEvent.unsubscribe] :=
  ⟨((C7_subscriber_start false true "connection refused" "").1 rfl).1,
   ((C7_subscriber_start true true "" "").2 rfl rfl).1⟩

/-! ### Claim C5 -/

/-- C5: when the working directory does not exist, `run` emits exactly one
error notification and one terminal notification with success `false`,
spawns no OS process, and returns (the read loop is never entered). -/
theorem C5_path_missing (spawnOk : Bool) (excMsg path : String) (lines : List String)
    (stopF pollF : Nat → Bool) (rc : Int) :
    runEvents false spawnOk excMsg path lines stopF pollF rc
      = [Event.err ("错误: NDT路径不存在: " ++ path), Event.fin false]
    ∧ Event.spawn ∉ runEvents false spawnOk excMsg path lines stopF pollF rc
    ∧ (runEvents false spawnOk excMsg path lines stopF pollF rc).filter isFinEv
        = [Event.fin false] := by
  refine ⟨rfl, ?_, rfl⟩
  intro h
  simp [runEvents] at h

/-! ### Claim C1 -/

/-- An empty raw line sanitizes to nothing and yields no event. -/
theorem processLine_empty : processLine "" = [] := by decide

/-- The `if line:` guard of the read loop is redundant for the event trace:
an empty line contributes no event either way. -/
theorem lineGuard (line : String) :
    (if line = "" then ([] : List Event) else processLine line) = processLine line := by
  by_cases h : line = ""
  · subst h
    simp [processLine_empty]
  · simp [h]

/-- `linesEvents` unfolds one line at a time. -/
theorem linesEvents_cons (l : String) (rest : List String) :
    linesEvents (l :: rest) = processLine l ++ linesEvents rest := rfl

/-- When the stop flag is never observed set and the poll never observes the
process exit, the read loop delivers the events of every line. -/
theorem runLoop_full (stopF pollF : Nat → Bool) (hs : ∀ j, stopF j = false)
    (hp : ∀ j, pollF j = false) :
    ∀ (lines : List String) (i : Nat), runLoop stopF pollF i lines = linesEvents lines := by
  intro lines
  induction lines with
  | nil => intro i; rfl
  | cons line rest ih =>
    intro i
    simp only [runLoop, hs i, hp i]
    rw [lineGuard, ih (i + 1), linesEvents_cons]
    simp

/-- A single line never produces a terminal event. -/
theorem processLine_filter_fin (line : String) : (processLine line).filter isFinEv = [] := by
  by_cases h1 : cleanList (pyStrip line.data) = []
  · simp [processLine, h1]
  · by_cases h2 : classify (cleanList (pyStrip line.data)) = Severity.error <;>
      simp [processLine, h1, h2, isFinEv]

/-- A single line produces only line events. -/
theorem processLine_filter_line (line : String) :
    (processLine line).filter isLineEv = processLine line := by
  by_cases h1 : cleanList (pyStrip line.data) = []
  · simp [processLine, h1]
  · by_cases h2 : classify (cleanList (pyStrip line.data)) = Severity.error <;>
      simp [processLine, h1, h2, isLineEv]

/-- The concatenated line events contain no terminal event. -/
theorem linesEvents_filter_fin (lines : List String) :
    (linesEvents lines).filter isFinEv = [] := by
  induction lines with
  | nil => rfl
  | cons l rest ih =>
    rw [linesEvents_cons, List.filter_append, processLine_filter_fin, ih]
    rfl

/-- The concatenated line events consist of line events only. -/
theorem linesEvents_filter_line (lines : List String) :
    (linesEvents lines).filter isLineEv = linesEvents lines := by
  induction lines with
  | nil => rfl
  | cons l rest ih =>
    rw [linesEvents_cons, List.filter_append, processLine_filter_line, ih]

/-- C1 counterexample: the claim "each line whose sanitized form is
non-empty is emitted exactly once before the terminal notification" is
false on the code as stated: the read loop also breaks when the
per-iteration `self.process.poll()` check observes that the process has
exited, dropping the lines still buffered in the pipe.  In the concrete run
below the process wrote `hello` and `world` and exited; the poll observes
the exit after the first iteration, and the event for `world` — whose
sanitized form is the non-empty `world` — is never emitted. -/
theorem C1_counterexample :
    processLine "world\n" = [Event.out "world"]
    ∧ Event.out "world" ∉
        runEvents true true "" "/media/dzt/pym/NDT" ["hello\n", "world\n"]
          (fun _ => false) (fun _ => true) 0 := by
  refine ⟨?_, ?_⟩ <;> decide

/-- C1 amended: in every run in which the stop flag stays clear and the
mid-loop poll never observes the process exit before the read loop reaches
end of stream, the trace is exactly the two preamble messages, the spawn,
the per-line events in emission order (each non-empty sanitized line
contributing exactly one event), and a single terminal notification, last,
whose success flag is `exit code = 0`. -/
theorem C1_line_delivery (excMsg path : String) (lines : List String)
    (stopF pollF : Nat → Bool) (rc : Int)
    (hs : ∀ j, stopF j = false) (hp : ∀ j, pollF j = false) :
    runEvents true true excMsg path lines stopF pollF rc
      = [Event.out (msgStarting path), Event.out (msgCommand path), Event.spawn]
        ++ linesEvents lines ++ [Event.fin (decide (rc = 0))]
    ∧ (runEvents true true excMsg path lines stopF pollF rc).filter isFinEv
      = [Event.fin (decide (rc = 0))]
    ∧ (runEvents true true excMsg path lines stopF pollF rc).getLast?
      = some (Event.fin (decide (rc = 0)))
    ∧ (runEvents true true excMsg path lines stopF pollF rc).filter isLineEv
      = [Event.out (msgStarting path), Event.out (msgCommand path)] ++ linesEvents lines := by
  have h0 : runLoop stopF pollF 0 lines = linesEvents lines :=
    runLoop_full stopF pollF hs hp lines 0
  have hmain : runEvents true true excMsg path lines stopF pollF rc
      = [Event.out (msgStarting path), Event.out (msgCommand path), Event.spawn]
        ++ linesEvents lines ++ [Event.fin (decide (rc = 0))] := by
    simp [runEvents, h0]
  refine ⟨hmain, ?_, ?_, ?_⟩
  · rw [hmain, List.filter_append, List.filter_append, linesEvents_filter_fin]
    simp [isFinEv]
  · rw [hmain]
    exact List.getLast?_concat _
  · rw [hmain, List.filter_append, List.filter_append, linesEvents_filter_line]
    simp [isLineEv]

/-- C1 witness: the amended theorem on a concrete one-line run, giving the
terminal notification as the last event. -/
theorem C1_line_delivery_w :
    (runEvents true true "" "/media/dzt/pym/NDT" ["a\n"] (fun _ => false) (fun _ => false) 0).getLast?
      = some (Event.fin (decide ((0 : Int) = 0))) :=
  (C1_line_delivery "" "/media/dzt/pym/NDT" ["a\n"] (fun _ => false) (fun _ => false) 0
    (fun _ => rfl) (fun _ => rfl)).2.2.1

/-! ### Claim C8 -/

/-- `startSubFn` preserves the session invariant. -/
theorem startSubFn_inv (s : Sess) (rosOk : Bool) (h : SessInv s) :
    SessInv (startSubFn s rosOk) := by
  obtain ⟨h1, h2, h3⟩ := h
  by_cases ha : s.subActive = true
  · simp only [startSubFn, if_pos ha]
    exact ⟨h1, h2, h3⟩
  · have hs0 : s.subLive = 0 := h3 (by simpa using ha)
    by_cases hr : rosOk = true
    · simp only [startSubFn, if_neg ha, if_pos hr]
      refine ⟨h1, by simp [hs0], ?_⟩
      intro hfalse
      simp at hfalse
    · simp only [startSubFn, if_neg ha, if_neg hr]
      exact ⟨h1, h2, h3⟩

/-- Every consumer-level operation preserves the session invariant. -/
theorem applyOp_inv (s : Sess) (op : SessOp) (h : SessInv s) : SessInv (applyOp s op) := by
  obtain ⟨h1, h2, h3⟩ := h
  cases op with
  | startLoc conf =>
    by_cases ha : s.locActive = true
    · simp only [applyOp, if_pos ha]
      exact ⟨h1, h2, h3⟩
    · have hl0 : s.locLive = 0 := by rw [h1, if_neg ha]
      by_cases hc : conf = true
      · simp only [applyOp, if_neg ha, if_pos hc]
        exact ⟨by simp [hl0], h2, h3⟩
      · simp only [applyOp, if_neg ha, if_neg hc]
        exact ⟨h1, h2, h3⟩
  | stopLoc conf =>
    by_cases ha : s.locActive = false
    · simp only [applyOp, if_pos ha]
      exact ⟨h1, h2, h3⟩
    · have haT : s.locActive = true := by revert ha; cases s.locActive <;> simp
      have hl1 : s.locLive = 1 := by rw [h1, if_pos haT]
      by_cases hc : conf = true
      · simp only [applyOp, if_neg ha, if_pos hc]
        exact ⟨by simp [hl1], h2, h3⟩
      · simp only [applyOp, if_neg ha, if_neg hc]
        exact ⟨h1, h2, h3⟩
  | locExited =>
    by_cases ha : s.locActive = true
    · have hl1 : s.locLive = 1 := by rw [h1, if_pos ha]
      simp only [applyOp, if_pos ha]
      exact ⟨by simp [hl1], h2, h3⟩
    · simp only [applyOp, if_neg ha]
      exact ⟨h1, h2, h3⟩
  | startSub rosOk => exact startSubFn_inv s rosOk ⟨h1, h2, h3⟩
  | restartSub rosOk =>
    have hmid : SessInv { s with subActive := false, subLive := 0 } :=
      ⟨h1, by simp, fun _ => rfl⟩
    exact startSubFn_inv _ rosOk hmid
  | subDied =>
    refine ⟨h1, ?_, ?_⟩
    · show s.subLive - 1 ≤ 1
      omega
    · intro hf
      have := h3 hf
      show s.subLive - 1 = 0
      omega

/-- The invariant holds along any fold of consumer operations. -/
theorem foldl_inv (ops : List SessOp) : ∀ s : Sess, SessInv s → SessInv (ops.foldl applyOp s) := by
  induction ops with
  | nil => intro s h; exact h
  | cons op rest ih =>
    intro s h
    exact ih (applyOp s op) (applyOp_inv s op h)

/-- C8: along every sequence of consumer operations from the initial state,
at most one localization process and at most one pose subscription are live
at any instant (in particular a `restartSub`, which joins the previous
thread before starting, never yields two); and a start issued while the
corresponding guard flag is set is rejected unchanged. -/
theorem C8_single_instance (ops : List SessOp) :
    ((runSess ops).locLive ≤ 1 ∧ (runSess ops).subLive ≤ 1)
    ∧ (∀ s : Sess, ∀ c : Bool, s.locActive = true → applyOp s (SessOp.startLoc c) = s)
    ∧ (∀ s : Sess, ∀ r : Bool, s.subActive = true → applyOp s (SessOp.startSub r) = s) := by
  refine ⟨?_, ?_, ?_⟩
  · have h := foldl_inv ops initSess ⟨rfl, Nat.zero_le 1, fun _ => rfl⟩
    obtain ⟨h1, h2, _⟩ := h
    constructor
    · show (ops.foldl applyOp initSess).locLive ≤ 1
      rw [h1]
      split <;> omega
    · show (ops.foldl applyOp initSess).subLive ≤ 1
      exact h2
  · intro s c h
    simp [applyOp, h]
  · intro s r h
    simp [applyOp, startSubFn, h]

/-- C8 witness: a start issued while the subscription guard is set is
rejected. -/
theorem C8_single_instance_w :
    applyOp ⟨false, true, 0, 1⟩ (SessOp.startSub true) = ⟨false, true, 0, 1⟩ :=
  (C8_single_instance []).2.2 ⟨false, true, 0, 1⟩ true rfl
